import Mathlib

/-
Verification development for the unreal-mcp command/response bridge.

The embedding models, at character level, the code of:
  Python/unreal_mcp_server.py        (UnrealConnection: connect, receive_full_response, send_command)
  Python/unreal_mcp/server.py        (UnrealConnection variant of send_command, lines 129-136)
  Python/unreal_mcp/bridge/unreal_bridge.py  (newline-framed bridge with a reused global connection)

Conventions of the embedding:
  byte strings are modelled as List Char (the code only manipulates UTF-8 text;
  invalid-UTF-8 corner cases are outside the model);
  Python dicts are modelled as insertion-ordered association lists without
  duplicate keys, with assignment semantics mirrored by dictSet;
  json.loads is modelled by an executable recursive-descent JSON parser;
  socket reads are modelled as a list of read events consumed in order.
-/

namespace UMCP

/-- JSON values as produced by json.loads. Numbers keep their literal text,
since no claim depends on numeric value semantics. Objects are
insertion-ordered association lists without duplicate keys, mirroring a
Python dict. -/
inductive Json where
  | null : Json
  | bool (b : Bool) : Json
  | num (lit : String) : Json
  | str (s : String) : Json
  | arr (items : List Json) : Json
  | obj (fields : List (String × Json)) : Json

/-- The Python comparison value == "error" on the result of dict.get: true
exactly when the value is present and is the given string (in Python no value
of another type compares equal to a str). -/
def eqStrVal (v : Option Json) (s : String) : Bool :=
  match v with
  | some (Json.str t) => t = s
  | _ => false

/-- The Python test value is False on the result of dict.get: true exactly
when the value is present and is the boolean literal false. -/
def isFalseLit (v : Option Json) : Bool :=
  match v with
  | some (Json.bool false) => true
  | _ => false

/-- Dictionary lookup, mirroring Python dict.get (association lists built by
dictSet never hold duplicate keys, so first match is the unique match). -/
def dlookup : List (String × Json) → String → Option Json
  | [], _ => none
  | (k, v) :: rest, key => if k = key then some v else dlookup rest key

/-- Python dict assignment d[k] = v: replaces the value in place when the key
exists (keeping its position), otherwise appends at the end. -/
def dictSet : List (String × Json) → String → Json → List (String × Json)
  | [], k, v => [(k, v)]
  | (k0, v0) :: rest, k, v =>
      if k0 = k then (k0, v) :: rest else (k0, v0) :: dictSet rest k v

/-- Python truthiness of a JSON value. A numeric literal is truthy when its
mantissa holds a nonzero digit (float underflow of tiny exponents is not
modelled; no claim involves numbers). -/
def truthy : Json → Bool
  | Json.null => false
  | Json.bool b => b
  | Json.num lit =>
      (lit.toList.takeWhile (fun c => c ≠ 'e' ∧ c ≠ 'E')).any
        (fun c => '1' ≤ c ∧ c ≤ '9')
  | Json.str s => s ≠ ""
  | Json.arr items => ¬ items.isEmpty
  | Json.obj fields => ¬ fields.isEmpty

/-- JSON insignificant whitespace, as accepted by json.loads. -/
def isWsChar (c : Char) : Bool :=
  c = ' ' ∨ c = '\t' ∨ c = '\n' ∨ c = '\r'

/-- Drop leading JSON whitespace. -/
def skipWs : List Char → List Char
  | [] => []
  | c :: rest => if isWsChar c then skipWs rest else c :: rest

/-- Python str.strip: drop leading and trailing whitespace. -/
def stripWs (l : List Char) : List Char :=
  ((skipWs ((skipWs l).reverse)).reverse)

/-- Python bytes.endswith applied to a single newline byte. -/
def endsWithNl (l : List Char) : Bool :=
  match l.getLast? with
  | some c => c = '\n'
  | none => false

/-- Value of a hexadecimal digit, for string \u escapes. -/
def hexVal (c : Char) : Option Nat :=
  if '0' ≤ c ∧ c ≤ '9' then some (c.toNat - '0'.toNat)
  else if 'a' ≤ c ∧ c ≤ 'f' then some (c.toNat - 'a'.toNat + 10)
  else if 'A' ≤ c ∧ c ≤ 'F' then some (c.toNat - 'A'.toNat + 10)
  else none

/-- Single-character string escapes recognized by JSON. -/
def escChar (c : Char) : Option Char :=
  if c = '\"' then some '\"'
  else if c = '\\' then some '\\'
  else if c = '/' then some '/'
  else if c = 'b' then some (Char.ofNat 8)
  else if c = 'f' then some (Char.ofNat 12)
  else if c = 'n' then some '\n'
  else if c = 'r' then some '\r'
  else if c = 't' then some '\t'
  else none

/-- Body of a JSON string after the opening quote: returns the decoded
characters and the remaining input after the closing quote. Surrogate-pair
recombination of \u escapes is not modelled (Char.ofNat is applied to the
single code unit); no claim involves such strings. Unescaped control
characters are rejected as in strict json.loads. The fuel argument only
serves termination; callers supply at least the input length plus one, which
is always enough because every recursive call consumes input. -/
def strBody : Nat → List Char → Option (List Char × List Char)
  | 0, _ => none
  | _ + 1, [] => none
  | fu + 1, c :: rest =>
    if c = '\"' then some ([], rest)
    else if c = '\\' then
      match rest with
      | [] => none
      | e :: rest2 =>
        if e = 'u' then
          match rest2 with
          | a :: b :: c2 :: d :: rest3 =>
            match hexVal a, hexVal b, hexVal c2, hexVal d with
            | some ha, some hb, some hc, some hd =>
              match strBody fu rest3 with
              | some (cs, rem) =>
                  some (Char.ofNat (((ha * 16 + hb) * 16 + hc) * 16 + hd) :: cs, rem)
              | none => none
            | _, _, _, _ => none
          | _ => none
        else
          match escChar e with
          | some ec =>
            match strBody fu rest2 with
            | some (cs, rem) => some (ec :: cs, rem)
            | none => none
          | none => none
    else if c.toNat < 32 then none
    else
      match strBody fu rest with
      | some (cs, rem) => some (c :: cs, rem)
      | none => none

/-- Decimal digit test. -/
def isDigitCh (c : Char) : Bool := '0' ≤ c ∧ c ≤ '9'

/-- Split off a maximal run of decimal digits. -/
def spanDigits : List Char → (List Char × List Char)
  | [] => ([], [])
  | c :: rest =>
    if isDigitCh c then
      let (ds, rem) := spanDigits rest
      (c :: ds, rem)
    else ([], c :: rest)

/-- Integer part of a JSON number after an optional sign: a lone 0 or a
nonzero digit followed by digits. -/
def numIntPart : List Char → Option (List Char × List Char)
  | [] => none
  | c :: rest =>
    if c = '0' then some ([c], rest)
    else if isDigitCh c then
      let (ds, rem) := spanDigits rest
      some (c :: ds, rem)
    else none

/-- Optional fraction part of a JSON number. -/
def numFracPart : List Char → Option (List Char × List Char)
  | '.' :: rest =>
    match spanDigits rest with
    | ([], _) => none
    | (ds, rem) => some ('.' :: ds, rem)
  | l => some ([], l)

/-- Optional exponent part of a JSON number. -/
def numExpPart : List Char → Option (List Char × List Char)
  | c :: rest =>
    if c = 'e' ∨ c = 'E' then
      match rest with
      | s :: rest2 =>
        if s = '+' ∨ s = '-' then
          match spanDigits rest2 with
          | ([], _) => none
          | (ds, rem) => some (c :: s :: ds, rem)
        else
          match spanDigits rest with
          | ([], _) => none
          | (ds, rem) => some (c :: ds, rem)
      | [] => none
    else some ([], c :: rest)
  | [] => some ([], [])

/-- Full JSON number literal with optional leading minus sign. -/
def parseNum (l : List Char) : Option (List Char × List Char) :=
  let (sgn, l1) := match l with
    | '-' :: rest => (['-'], rest)
    | _ => (([] : List Char), l)
  match numIntPart l1 with
  | none => none
  | some (ip, l2) =>
    match numFracPart l2 with
    | none => none
    | some (fp, l3) =>
      match numExpPart l3 with
      | none => none
      | some (ep, l4) => some (sgn ++ ip ++ fp ++ ep, l4)

/-- Parser mode: a whole JSON value, the elements of an array after the
opening bracket, or the members of an object after the opening brace with
the members read so far. -/
inductive PMode where
  | val : PMode
  | arrItems : PMode
  | objItems (acc : List (String × Json)) : PMode

/-- Recursive-descent JSON parser modelling json.loads, written as one
function over a mode so that recursion is structural on the fuel and the
definition reduces by computation. The fuel only serves termination;
parseJsonChars supplies enough that it never runs out (every recursive call
consumes input). In objItems mode duplicate keys follow Python dict
semantics through dictSet: the last occurrence wins while the first fixes
the position. Returns the parsed value and the unconsumed remainder. -/
def parseF : Nat → PMode → List Char → Option (Json × List Char)
  | 0, _, _ => none
  | _ + 1, PMode.val, [] => none
  | fu + 1, PMode.val, c :: rest =>
    if c = '\"' then
      match strBody (rest.length + 1) rest with
      | some (cs, rem) => some (Json.str (String.mk cs), rem)
      | none => none
    else if c = '\x7b' then
      match skipWs rest with
      | '\x7d' :: rem => some (Json.obj [], rem)
      | l => parseF fu (PMode.objItems []) l
    else if c = '[' then
      match skipWs rest with
      | ']' :: rem => some (Json.arr [], rem)
      | l => parseF fu PMode.arrItems l
    else if c = 't' then
      match rest with
      | 'r' :: 'u' :: 'e' :: rem => some (Json.bool true, rem)
      | _ => none
    else if c = 'f' then
      match rest with
      | 'a' :: 'l' :: 's' :: 'e' :: rem => some (Json.bool false, rem)
      | _ => none
    else if c = 'n' then
      match rest with
      | 'u' :: 'l' :: 'l' :: rem => some (Json.null, rem)
      | _ => none
    else if c = '-' ∨ isDigitCh c then
      match parseNum (c :: rest) with
      | some (lit, rem) => some (Json.num (String.mk lit), rem)
      | none => none
    else none
  | fu + 1, PMode.arrItems, l =>
    match parseF fu PMode.val l with
    | none => none
    | some (v, rem) =>
      match skipWs rem with
      | ',' :: r2 =>
        match parseF fu PMode.arrItems (skipWs r2) with
        | some (Json.arr vs, r3) => some (Json.arr (v :: vs), r3)
        | _ => none
      | ']' :: r2 => some (Json.arr [v], r2)
      | _ => none
  | fu + 1, PMode.objItems acc, l =>
    match l with
    | '\"' :: rest =>
      match strBody (rest.length + 1) rest with
      | some (kcs, r1) =>
        match skipWs r1 with
        | ':' :: r2 =>
          match parseF fu PMode.val (skipWs r2) with
          | some (v, r3) =>
            match skipWs r3 with
            | ',' :: r4 => parseF fu (PMode.objItems (dictSet acc (String.mk kcs) v)) (skipWs r4)
            | '\x7d' :: r4 => some (Json.obj (dictSet acc (String.mk kcs) v), r4)
            | _ => none
          | none => none
        | _ => none
      | none => none
    | _ => none

/-- json.loads on a character list: skip surrounding whitespace, parse one
value, and require that nothing but whitespace remains. The fuel bound
4 * length + 8 exceeds the number of parser calls possible on the input. -/
def parseJsonChars (l : List Char) : Option Json :=
  match parseF (4 * l.length + 8) PMode.val (skipWs l) with
  | some (v, rem) => if skipWs rem = [] then some v else none
  | none => none

/-- The completeness test the trial-parse framer applies after every read:
does the accumulated buffer parse as one JSON document. -/
def jsonOk (l : List Char) : Bool :=
  (parseJsonChars l).isSome

/-- One result of sock.recv inside a receive loop: either data arrived (the
empty list models a peer that closed the stream, which recv reports as zero
bytes), or the per-read timeout fired (socket.timeout raised). -/
inductive ReadEvent where
  | bytes (data : List Char) : ReadEvent
  | timedOut : ReadEvent
deriving DecidableEq, Repr

/-- Outcome of UnrealConnection.receive_full_response. ok is the return of
the accumulated data; pyNone is the break on a zero-byte read with a
non-empty buffer, after which the function falls off its end and returns the
Python value None; closedEarly is the raise of the exception with message
Connection closed before receiving data; timedOutErr is the raise of the
exception with message Timeout receiving Unreal response; noMoreEvents is a
model artifact reached only when the supplied event list is exhausted while
the code would still be reading. -/
inductive RecvOutcome where
  | ok (data : List Char) : RecvOutcome
  | pyNone : RecvOutcome
  | closedEarly : RecvOutcome
  | timedOutErr : RecvOutcome
  | noMoreEvents : RecvOutcome
deriving DecidableEq, Repr

/-- The read loop of UnrealConnection.receive_full_response
(unreal_mcp_server.py lines 81 to 124): accumulate each chunk, after every
chunk try to parse the whole buffer as JSON and return it on success; a
zero-byte read raises the closed-early error on an empty buffer and
otherwise breaks out (pyNone); on a read timeout return the buffer when it
already parses, otherwise raise the timeout error. -/
def recvLoop : List Char → List ReadEvent → RecvOutcome
  | _, [] => RecvOutcome.noMoreEvents
  | buf, ReadEvent.bytes d :: rest =>
    if d.isEmpty then
      if buf.isEmpty then RecvOutcome.closedEarly else RecvOutcome.pyNone
    else
      let nb := buf ++ d
      if jsonOk nb then RecvOutcome.ok nb else recvLoop nb rest
  | buf, ReadEvent.timedOut :: _ =>
    if buf.isEmpty then RecvOutcome.timedOutErr
    else if jsonOk buf then RecvOutcome.ok buf
    else RecvOutcome.timedOutErr

/-- receive_full_response started on an empty buffer. -/
def receiveFullResponse (events : List ReadEvent) : RecvOutcome :=
  recvLoop [] events

/-- The error-message expression of send_command:
response.get(error) or response.get(message, Unknown Unreal error),
with Python or-semantics on truthiness and the dict.get default only
applying when the key is absent. -/
def errMsgOf (fs : List (String × Json)) : Json :=
  let a := (dlookup fs "error").getD Json.null
  if truthy a then a
  else (dlookup fs "message").getD (Json.str "Unknown Unreal error")

/-- The response transformation of UnrealConnection.send_command in
unreal_mcp_server.py (lines 161 to 176): a response whose status field
equals error is returned as is, with an error key appended only when absent;
a response whose success field is the literal false is replaced by the
two-field object with status error and the extracted error text; any other
response is returned unchanged. -/
def codeNormalize (fs : List (String × Json)) : List (String × Json) :=
  if eqStrVal (dlookup fs "status") "error" then
    if (dlookup fs "error").isSome then fs
    else fs ++ [("error", errMsgOf fs)]
  else if isFalseLit (dlookup fs "success") then
    [("status", Json.str "error"), ("error", errMsgOf fs)]
  else fs

/-- The same transformation as written in unreal_mcp/server.py (lines 129 to
136): identical except that in the status-equals-error branch the error key
is assigned unconditionally, overwriting a present value. -/
def codeNormalizeV2 (fs : List (String × Json)) : List (String × Json) :=
  if eqStrVal (dlookup fs "status") "error" then
    dictSet fs "error" (errMsgOf fs)
  else if isFalseLit (dlookup fs "success") then
    [("status", Json.str "error"), ("error", errMsgOf fs)]
  else fs

/-- The two-field error object that send_command builds in its exception
handler and in the success-equals-false branch. -/
def mkErr (s : String) : Json :=
  Json.obj [("status", Json.str "error"), ("error", Json.str s)]

/-- Stand-in text for the message of the AttributeError that is raised when
send_command calls a dict method on a non-dict value (a response that parsed
to a non-object, or the None returned by the pyNone path). The code turns the
exception text into the error field; the exact interpreter wording is not
modelled. -/
def attrErrText : String := "AttributeError"

/-- Stand-in text for the message of a json.JSONDecodeError inside
send_command. On the receive path of the trial-parse variant this is dead in
practice, because receive_full_response only returns buffers that parse. -/
def decodeErrText : String := "JSONDecodeError"

/-- UnrealConnection.send_command (unreal_mcp_server.py lines 126 to 201) as
a function of whether the fresh connect succeeds and of the read events.
The outer Option is none only for the model artifact of running out of read
events; some r is the Python return value, where r is none for the Python
None returned when the connect fails, and some of a JSON value otherwise.
Every exception raised below the connect (closed early, timeout, decode
failure, attribute error on a non-dict response) is caught by the handler at
lines 189 to 201 and becomes the two-field status error object. The write is
modelled as succeeding; a write failure would take the same handler. The
command name and parameters do not influence the result and are omitted. -/
def ucSend (connectOk : Bool) (events : List ReadEvent) : Option (Option Json) :=
  if connectOk = false then some none
  else
    match recvLoop [] events with
    | RecvOutcome.noMoreEvents => none
    | RecvOutcome.ok data =>
      match parseJsonChars data with
      | some (Json.obj fs) => some (some (Json.obj (codeNormalize fs)))
      | some _ => some (some (mkErr attrErrText))
      | none => some (some (mkErr decodeErrText))
    | RecvOutcome.pyNone => some (some (mkErr attrErrText))
    | RecvOutcome.closedEarly => some (some (mkErr "Connection closed before receiving data"))
    | RecvOutcome.timedOutErr => some (some (mkErr "Timeout receiving Unreal response"))

/-- State of one UnrealConnection object: self.socket, holding the id of the
socket object currently stored there, if any. The self.connected flag always
tracks whether the last connect succeeded and adds no information the claims
need. -/
structure UCSt where
  sock : Option Nat
deriving DecidableEq, Repr

/-- Instrumentation of socket activity across calls: the id the next created
socket object will get, the number of connect attempts made, and the ids of
all sockets whose close method has been called. -/
structure SockTrace where
  nextId : Nat
  connects : Nat
  closedIds : List Nat
deriving DecidableEq, Repr

/-- Record a close of the given socket id. -/
def recClose (i : Nat) (tr : SockTrace) : SockTrace :=
  { tr with closedIds := i :: tr.closedIds }

/-- UnrealConnection.send_command with socket bookkeeping, for the lifecycle
claims. Mirrors the code path for path: close any socket left in self.socket
(lines 130 to 136), create a fresh socket and attempt to connect (connect,
lines 38 to 69; on failure the unconnected socket object stays in
self.socket and the call returns the Python None), then run the exchange and
close the socket on every completion path, successful or not (lines 178 to
201). Result components: the Python return value, the final self state, the
trace, and the id of the socket used for the exchange. -/
def ucSendT (connectOk : Bool) (events : List ReadEvent) (st : UCSt)
    (tr : SockTrace) : Option (Option Json × UCSt × SockTrace × Option Nat) :=
  let tr1 := match st.sock with
    | some i => recClose i tr
    | none => tr
  let sid := tr1.nextId
  let tr2 : SockTrace :=
    { nextId := sid + 1, connects := tr1.connects + 1, closedIds := tr1.closedIds }
  if connectOk = false then
    some (none, UCSt.mk (some sid), tr2, none)
  else
    match ucSend true events with
    | none => none
    | some r => some (r, UCSt.mk none, recClose sid tr2, some sid)

/-- Run a sequence of send_command calls on one UnrealConnection, all with a
reachable remote, threading object state and trace. Calls whose event list
is exhausted prematurely (the model artifact) leave the state unchanged. -/
def runUC : List (List ReadEvent) → UCSt × SockTrace → UCSt × SockTrace
  | [], s => s
  | ev :: rest, (st, tr) =>
    match ucSendT true ev st tr with
    | some (_, st2, tr2, _) => runUC rest (st2, tr2)
    | none => runUC rest (st, tr)

/-- Outcome of the inline newline-framed receive loop of
unreal_bridge.send_command (lines 69 to 87). -/
inductive BridgeRecvOutcome where
  | line (l : List Char) : BridgeRecvOutcome
  | closedMid : BridgeRecvOutcome
  | overflow : BridgeRecvOutcome
  | timedOutB : BridgeRecvOutcome
  | noMoreEventsB : BridgeRecvOutcome
deriving DecidableEq, Repr

/-- The newline-framed receive loop of unreal_bridge.send_command: append
each chunk; when the buffer ends with a newline, break with the stripped
buffer; otherwise, when the buffer exceeds 1048576 bytes, give up (the code
closes the connection and returns the Python None); a zero-byte read gives
closedMid (close plus Python None); a read timeout raises socket.timeout,
handled by the network-error handler. -/
def bridgeRecv : List Char → List ReadEvent → BridgeRecvOutcome
  | _, [] => BridgeRecvOutcome.noMoreEventsB
  | buf, ReadEvent.bytes d :: rest =>
    if d.isEmpty then BridgeRecvOutcome.closedMid
    else
      let nb := buf ++ d
      if endsWithNl nb then BridgeRecvOutcome.line (stripWs nb)
      else if 1048576 < nb.length then BridgeRecvOutcome.overflow
      else bridgeRecv nb rest
  | _, ReadEvent.timedOut :: _ => BridgeRecvOutcome.timedOutB

/-- State of the unreal_bridge module: the global _connection (id of the
live socket, if any) plus the socket instrumentation. -/
structure BridgeSt where
  conn : Option Nat
  nextId : Nat
  connects : Nat
deriving DecidableEq, Repr

/-- Stand-in text for the error dict built by the network-error handler of
unreal_bridge.send_command (the code interpolates the exception text). -/
def netErrText : String := "Network error"

/-- Stand-in text for the error dict built by the JSON-decode handler of
unreal_bridge.send_command. -/
def bridgeDecodeErrText : String := "JSON decode error"

/-- unreal_bridge.send_command (lines 58 to 104) with the module state
threaded: _get_connection reuses the existing global connection and only
connects when there is none (lines 22 to 44); a connect failure is caught by
the network-error handler and returned as an error dict; a newline-framed
response is stripped and parsed, and a parse failure is returned as an error
dict while deliberately keeping the connection open (lines 97 to 100); a
successful parse returns the parsed value, also keeping the connection open
for the next call; a zero-byte read and a buffer overflow close the
connection and return the Python None; a read timeout closes the connection
and returns an error dict. Result components: the Python return value, the
final module state, and the id of the socket used, if one was obtained. -/
def bridgeSend (connectOk : Bool) (st : BridgeSt) (events : List ReadEvent) :
    Option (Option Json × BridgeSt × Option Nat) :=
  match st.conn with
  | none =>
    if connectOk = false then
      some (some (Json.obj [("error", Json.str netErrText)]),
        BridgeSt.mk none (st.nextId + 1) (st.connects + 1), none)
    else
      bridgeExchange (BridgeSt.mk (some st.nextId) (st.nextId + 1) (st.connects + 1))
        st.nextId events
  | some i => bridgeExchange st i events

where
  /-- The exchange of unreal_bridge.send_command once a connection is in
  hand: write (modelled as succeeding), run the newline receive loop, and
  dispatch on its outcome. An empty stripped line hits the guard at line 91
  and returns the Python None with the connection kept. -/
  bridgeExchange (st : BridgeSt) (i : Nat) (events : List ReadEvent) :
      Option (Option Json × BridgeSt × Option Nat) :=
    match bridgeRecv [] events with
    | BridgeRecvOutcome.noMoreEventsB => none
    | BridgeRecvOutcome.line l =>
      if l.isEmpty then some (none, st, some i)
      else
        match parseJsonChars l with
        | some v => some (some v, st, some i)
        | none =>
          some (some (Json.obj [("error", Json.str bridgeDecodeErrText)]), st, some i)
    | BridgeRecvOutcome.closedMid =>
      some (none, BridgeSt.mk none st.nextId st.connects, some i)
    | BridgeRecvOutcome.overflow =>
      some (none, BridgeSt.mk none st.nextId st.connects, some i)
    | BridgeRecvOutcome.timedOutB =>
      some (some (Json.obj [("error", Json.str netErrText)]),
        BridgeSt.mk none st.nextId st.connects, some i)

/-- The canonical result shape of the specification: ok flag, payload, and
error text. -/
structure Normalized where
  ok : Bool
  payload : Option Json
  errorText : Option Json

/-- Error-text rule of the specification normalizer: raw.error or
raw.message or the fixed unknown-error string, with Python or-semantics. -/
def specErrText (fs : List (String × Json)) : Json :=
  let a := (dlookup fs "error").getD Json.null
  if truthy a then a
  else
    let b := (dlookup fs "message").getD Json.null
    if truthy b then b else Json.str "Unknown Unreal error"

/-- Specification-side normalizer, transcribed from section 4.4 of the
specification for refinement comparison with the code: status error or
success false give ok false with the extracted error text; otherwise ok true
with payload the result field when present and the whole envelope otherwise;
a missing or non-object raw value gives the no-response failure. The fixed
unknown-error string is instantiated with the literal the code uses. -/
def specNormalize (raw : Option Json) : Normalized :=
  match raw with
  | some (Json.obj fs) =>
    if eqStrVal (dlookup fs "status") "error" then
      ⟨false, none, some (specErrText fs)⟩
    else if isFalseLit (dlookup fs "success") then
      ⟨false, none, some (specErrText fs)⟩
    else
      ⟨true, some ((dlookup fs "result").getD (Json.obj fs)), none⟩
  | _ => ⟨false, none, some (Json.str "No response")⟩

/-- Deliver a byte sequence one byte per read. -/
def byteEvents (c : List Char) : List ReadEvent :=
  c.map (fun ch => ReadEvent.bytes [ch])

/-- The ping scenario response of the specification, as it arrives on the
wire. -/
def pingResponseChars : List Char :=
  "\x7b\"status\":\"success\",\"result\":\x7b\"pong\":true\x7d\x7d".toList

/-- The ping scenario response as a parsed envelope. -/
def pingResponseFields : List (String × Json) :=
  [("status", Json.str "success"), ("result", Json.obj [("pong", Json.bool true)])]

/-- C3: normalizing the Shape-A error envelope with status error and error
text x and the Shape-B envelope with success false and error text x produces
the same canonical result, with ok false and error text x, in both
send_command variants; in both shapes a missing error field falls back to
the message field, and when both are missing the fixed unknown-error string
of the code is used. -/
theorem c3_shape_equivalence (x m : String) (hx : x ≠ "") :
    codeNormalize [("status", Json.str "error"), ("error", Json.str x)]
      = [("status", Json.str "error"), ("error", Json.str x)] ∧
    codeNormalize [("success", Json.bool false), ("error", Json.str x)]
      = [("status", Json.str "error"), ("error", Json.str x)] ∧
    codeNormalizeV2 [("status", Json.str "error"), ("error", Json.str x)]
      = [("status", Json.str "error"), ("error", Json.str x)] ∧
    codeNormalizeV2 [("success", Json.bool false), ("error", Json.str x)]
      = [("status", Json.str "error"), ("error", Json.str x)] ∧
    specNormalize (some (Json.obj
        (codeNormalize [("status", Json.str "error"), ("error", Json.str x)])))
      = ⟨false, none, some (Json.str x)⟩ ∧
    specNormalize (some (Json.obj
        (codeNormalize [("success", Json.bool false), ("error", Json.str x)])))
      = ⟨false, none, some (Json.str x)⟩ ∧
    codeNormalize [("status", Json.str "error"), ("message", Json.str m)]
      = [("status", Json.str "error"), ("message", Json.str m), ("error", Json.str m)] ∧
    codeNormalize [("success", Json.bool false), ("message", Json.str m)]
      = [("status", Json.str "error"), ("error", Json.str m)] ∧
    codeNormalize [("status", Json.str "error")]
      = [("status", Json.str "error"), ("error", Json.str "Unknown Unreal error")] ∧
    codeNormalize [("success", Json.bool false)]
      = [("status", Json.str "error"), ("error", Json.str "Unknown Unreal error")] := by
  refine ⟨rfl, ?_, ?_, ?_, ?_, ?_, ?_, ?_, rfl, rfl⟩
  · simp [codeNormalize, errMsgOf, dlookup, eqStrVal, isFalseLit, truthy, hx]
  · simp [codeNormalizeV2, errMsgOf, dictSet, dlookup, eqStrVal, isFalseLit, truthy, hx]
  · simp [codeNormalizeV2, errMsgOf, dictSet, dlookup, eqStrVal, isFalseLit, truthy, hx]
  · simp [codeNormalize, errMsgOf, specNormalize, specErrText, dlookup, eqStrVal,
      isFalseLit, truthy, hx]
  · simp [codeNormalize, errMsgOf, specNormalize, specErrText, dlookup, eqStrVal,
      isFalseLit, truthy, hx]
  · simp [codeNormalize, errMsgOf, dlookup, eqStrVal, isFalseLit, truthy]
  · simp [codeNormalize, errMsgOf, dlookup, eqStrVal, isFalseLit, truthy]

/-- Witness for c3_shape_equivalence at the literal inputs of the
specification scenarios. -/
theorem c3_witness :
    codeNormalize [("success", Json.bool false), ("error", Json.str "x")]
      = [("status", Json.str "error"), ("error", Json.str "x")] ∧
    codeNormalize [("success", Json.bool false), ("message", Json.str "not found")]
      = [("status", Json.str "error"), ("error", Json.str "not found")] := by
  have h := c3_shape_equivalence "x" "not found" (by decide)
  exact ⟨h.2.1, h.2.2.2.2.2.2.2.1⟩

/-- C4: a successful response envelope (status not error, success not
false) passes through send_command unchanged, so that its canonical reading
has ok true and payload equal to the result field when present and the whole
envelope otherwise; in particular the ping response delivered through
send_command returns the envelope whose canonical reading is ok true with
payload the pong object and no error text. -/
theorem c4_success_passthrough (fs : List (String × Json))
    (h1 : eqStrVal (dlookup fs "status") "error" = false)
    (h2 : isFalseLit (dlookup fs "success") = false) :
    codeNormalize fs = fs ∧
    specNormalize (some (Json.obj fs))
      = ⟨true, some ((dlookup fs "result").getD (Json.obj fs)), none⟩ ∧
    ucSend true [ReadEvent.bytes pingResponseChars]
      = some (some (Json.obj pingResponseFields)) ∧
    specNormalize (some (Json.obj pingResponseFields))
      = ⟨true, some (Json.obj [("pong", Json.bool true)]), none⟩ := by
  refine ⟨?_, ?_, rfl, rfl⟩
  · simp [codeNormalize, h1, h2]
  · simp [specNormalize, h1, h2]

/-- Witness for c4_success_passthrough at the ping envelope. -/
theorem c4_witness :
    codeNormalize pingResponseFields = pingResponseFields ∧
    specNormalize (some (Json.obj pingResponseFields))
      = ⟨true, some (Json.obj [("pong", Json.bool true)]), none⟩ := by
  have h := c4_success_passthrough pingResponseFields rfl rfl
  exact ⟨h.1, h.2.2.2⟩

/-- C10 counterexample: in the unreal_mcp/server.py variant (cited by the
claim), a status-error envelope whose error field is present but falsy is
not returned with its fields unchanged: the present error field is
overwritten with the fallback text, refuting the claim that an error key is
only ever added when absent. -/
theorem c10_counterexample :
    codeNormalizeV2 [("status", Json.str "error"), ("error", Json.str "")]
      = [("status", Json.str "error"), ("error", Json.str "Unknown Unreal error")] ∧
    codeNormalizeV2 [("status", Json.str "error"), ("error", Json.str "")]
      ≠ [("status", Json.str "error"), ("error", Json.str "")] := by
  refine ⟨rfl, ?_⟩
  intro h
  simp [codeNormalizeV2, dictSet, errMsgOf, dlookup, truthy, eqStrVal] at h

/-- C10 amended: in unreal_mcp_server.py, a status-error envelope is
returned as the original object with every other field unchanged and an
error key appended only when absent; a success-false envelope is collapsed
to exactly the two-field status error object in both variants, discarding
all other fields; in the unreal_mcp/server.py variant the status-error
branch instead assigns the error key unconditionally, overwriting a present
but falsy value. -/
theorem c10_amended_error_branch_asymmetry (fs : List (String × Json)) :
    (eqStrVal (dlookup fs "status") "error" = true →
      (dlookup fs "error").isSome = true → codeNormalize fs = fs) ∧
    (eqStrVal (dlookup fs "status") "error" = true →
      dlookup fs "error" = none →
      codeNormalize fs = fs ++ [("error", errMsgOf fs)]) ∧
    (eqStrVal (dlookup fs "status") "error" = false →
      isFalseLit (dlookup fs "success") = true →
      codeNormalize fs = [("status", Json.str "error"), ("error", errMsgOf fs)] ∧
      codeNormalizeV2 fs = [("status", Json.str "error"), ("error", errMsgOf fs)]) ∧
    (eqStrVal (dlookup fs "status") "error" = true →
      codeNormalizeV2 fs = dictSet fs "error" (errMsgOf fs)) := by
  refine ⟨?_, ?_, ?_, ?_⟩
  · intro h1 h2; simp [codeNormalize, h1, h2]
  · intro h1 h2; simp [codeNormalize, h1, h2]
  · intro h1 h2; exact ⟨by simp [codeNormalize, h1, h2], by simp [codeNormalizeV2, h1, h2]⟩
  · intro h1; simp [codeNormalizeV2, h1]

/-- Witness for c10_amended_error_branch_asymmetry at a status-error
envelope with a present truthy error field and an extra top-level field. -/
theorem c10_witness :
    codeNormalize
        [("status", Json.str "error"), ("error", Json.str "boom"), ("extra", Json.num "7")]
      = [("status", Json.str "error"), ("error", Json.str "boom"), ("extra", Json.num "7")] :=
  (c10_amended_error_branch_asymmetry _).1 rfl rfl

/-- C6: a read that returns zero bytes while the accumulated buffer is empty
makes receive_full_response fail with the closed-early error (no hang, no
empty success); when the accumulated buffer together with the current chunk
already parses as a complete message, that data is returned as the final
message no matter what the stream does afterwards, so a later zero-byte read
is never an error; the newline bridge variant likewise fails its call on an
immediate zero-byte read, closing the connection and returning the Python
None rather than hanging or returning an empty success. -/
theorem c6_closed_early (rest : List ReadEvent) (buf d : List Char)
    (hd : d ≠ []) (hj : jsonOk (buf ++ d) = true) :
    receiveFullResponse (ReadEvent.bytes [] :: rest) = RecvOutcome.closedEarly ∧
    recvLoop buf (ReadEvent.bytes d :: rest) = RecvOutcome.ok (buf ++ d) ∧
    (∀ nid cn i : Nat,
      bridgeSend true (BridgeSt.mk (some i) nid cn) (ReadEvent.bytes [] :: rest)
        = some (none, BridgeSt.mk none nid cn, some i)) := by
  refine ⟨rfl, ?_, fun nid cn i => rfl⟩
  have hde : d.isEmpty = false := by
    cases d with
    | nil => exact absurd rfl hd
    | cons a t => rfl
  simp [recvLoop, hde, hj]

/-- Witness for c6_closed_early: a complete two-byte message followed by a
zero-byte read is returned as the final message. -/
theorem c6_witness :
    recvLoop [] [ReadEvent.bytes ("\x7b\x7d".toList), ReadEvent.bytes []]
      = RecvOutcome.ok ("\x7b\x7d".toList) := by
  have h := c6_closed_early [ReadEvent.bytes []] [] ("\x7b\x7d".toList) (by decide) rfl
  simpa using h.2.1

/-- C7: when the per-read timeout fires, receive_full_response returns the
accumulated buffer when it already parses as one complete message (the
salvage case) and otherwise fails with the timeout error; in particular a
peer that accepts the connection but never writes makes send_command return
the timeout error result instead of blocking past the socket timeout. -/
theorem c7_timeout_salvage (buf : List Char) (rest : List ReadEvent) :
    (jsonOk buf = true → buf ≠ [] →
      recvLoop buf (ReadEvent.timedOut :: rest) = RecvOutcome.ok buf) ∧
    (jsonOk buf = false →
      recvLoop buf (ReadEvent.timedOut :: rest) = RecvOutcome.timedOutErr) ∧
    ucSend true [ReadEvent.timedOut]
      = some (some (mkErr "Timeout receiving Unreal response")) := by
  refine ⟨?_, ?_, rfl⟩
  · intro hj hb
    have hbe : buf.isEmpty = false := by
      cases buf with
      | nil => exact absurd rfl hb
      | cons a t => rfl
    simp [recvLoop, hbe, hj]
  · intro hj
    cases hbe : buf.isEmpty with
    | true => simp [recvLoop, hbe]
    | false => simp [recvLoop, hbe, hj]

/-- Witness for c7_timeout_salvage: a parseable buffer is salvaged on
timeout, an unparseable one fails with the timeout error. -/
theorem c7_witness :
    recvLoop ("\x7b\x7d".toList) [ReadEvent.timedOut]
      = RecvOutcome.ok ("\x7b\x7d".toList) ∧
    recvLoop ("x".toList) [ReadEvent.timedOut] = RecvOutcome.timedOutErr :=
  ⟨(c7_timeout_salvage _ _).1 rfl (by decide), (c7_timeout_salvage _ _).2.1 rfl⟩

/-- Byte-by-byte delivery of a response no nonempty proper front of which
parses: the loop accumulates every byte and returns the full message at the
last byte. -/
theorem recvLoop_bytewise (c : List Char)
    (hws : ∀ p s, p ++ s = c → p ≠ [] → s ≠ [] → jsonOk p = false)
    (hj : jsonOk c = true) :
    ∀ suf pre, pre ++ suf = c → suf ≠ [] →
      recvLoop pre (byteEvents suf) = RecvOutcome.ok c := by
  intro suf
  induction suf with
  | nil => intro pre h hne; exact absurd rfl hne
  | cons ch suf2 ih =>
    intro pre h hne
    cases suf2 with
    | nil =>
      have hc : pre ++ [ch] = c := by simpa using h
      simp [byteEvents, recvLoop, hc, hj]
    | cons ch2 suf3 =>
      have hc : (pre ++ [ch]) ++ (ch2 :: suf3) = c := by
        simpa [List.append_assoc] using h
      have hfalse : jsonOk (pre ++ [ch]) = false :=
        hws (pre ++ [ch]) (ch2 :: suf3) hc (by simp) (by simp)
      have hrec := ih (pre ++ [ch]) hc (by simp)
      simpa [byteEvents, recvLoop, hfalse] using hrec

/-- C9 counterexample: the newline-terminated response consisting of a
complete JSON object followed by the single newline terminator the wire
format allows is a valid complete response (json.loads accepts trailing
whitespace), yet byte-by-byte delivery returns only the object bytes while
single-chunk delivery returns the object plus the newline: the returned
message bytes differ. -/
theorem c9_counterexample :
    jsonOk ['\x7b', '\x7d', '\n'] = true ∧
    receiveFullResponse (byteEvents ['\x7b', '\x7d', '\n'])
      = RecvOutcome.ok ['\x7b', '\x7d'] ∧
    receiveFullResponse [ReadEvent.bytes ['\x7b', '\x7d', '\n']]
      = RecvOutcome.ok ['\x7b', '\x7d', '\n'] ∧
    RecvOutcome.ok ['\x7b', '\x7d'] ≠ RecvOutcome.ok ['\x7b', '\x7d', '\n'] := by
  exact ⟨rfl, rfl, rfl, by decide⟩

/-- C9 amended: for every valid complete response byte sequence of which no
nonempty proper front parses on its own (in particular any JSON object with
no trailing delimiter), delivering it one byte per read yields exactly the
same returned message bytes as delivering it in one chunk; with a trailing
newline terminator the single-chunk and byte-by-byte deliveries decode to
the same JSON document but the returned bytes differ by that terminator. -/
theorem c9_bytewise_invariance (c : List Char)
    (hj : jsonOk c = true)
    (hws : ∀ p s, p ++ s = c → p ≠ [] → s ≠ [] → jsonOk p = false) :
    receiveFullResponse (byteEvents c) = RecvOutcome.ok c ∧
    receiveFullResponse [ReadEvent.bytes c] = RecvOutcome.ok c := by
  have hc : c ≠ [] := by
    intro h
    rw [h] at hj
    exact absurd hj (by decide)
  constructor
  · have := recvLoop_bytewise c hws hj c [] (by simp) hc
    simpa [receiveFullResponse] using this
  · have hce : c.isEmpty = false := by
      cases c with
      | nil => exact absurd rfl hc
      | cons a t => rfl
    simp [receiveFullResponse, recvLoop, hce, hj]

/-- Witness for c9_bytewise_invariance at the two-byte empty object. -/
theorem c9_witness :
    receiveFullResponse (byteEvents ['\x7b', '\x7d'])
      = RecvOutcome.ok ['\x7b', '\x7d'] ∧
    receiveFullResponse [ReadEvent.bytes ['\x7b', '\x7d']]
      = RecvOutcome.ok ['\x7b', '\x7d'] := by
  refine c9_bytewise_invariance ['\x7b', '\x7d'] rfl ?_
  intro p s hps hp hs
  cases p with
  | nil => exact absurd rfl hp
  | cons a p2 =>
    cases p2 with
    | nil =>
      simp only [List.cons_append, List.nil_append, List.cons.injEq] at hps
      obtain ⟨ha, -⟩ := hps
      subst ha
      rfl
    | cons b p3 =>
      simp only [List.cons_append, List.cons.injEq] at hps
      obtain ⟨-, -, h3⟩ := hps
      exact absurd (List.append_eq_nil.mp h3).2 hs

/-- The character x starts no JSON value, whatever follows and whatever the
fuel. -/
theorem parseF_x (fu : Nat) (r : List Char) :
    parseF fu PMode.val ('x' :: r) = none := by
  cases fu with
  | zero => rfl
  | succ n => rfl

/-- A buffer starting with the character x never parses. -/
theorem jsonOk_x (r : List Char) : jsonOk ('x' :: r) = false := by
  simp [jsonOk, parseJsonChars, parseF_x, show skipWs ('x' :: r) = 'x' :: r from rfl]

/-- A nonempty all-x buffer never parses. -/
theorem jsonOk_replicate_x (n : Nat) (h : n ≠ 0) :
    jsonOk (List.replicate n 'x') = false := by
  cases n with
  | zero => exact absurd rfl h
  | succ m =>
    rw [List.replicate_succ]
    exact jsonOk_x _

/-- A nonempty all-x buffer is nonempty. -/
theorem isEmpty_replicate_x (n : Nat) (h : n ≠ 0) :
    (List.replicate n 'x').isEmpty = false := by
  cases n with
  | zero => exact absurd rfl h
  | succ m =>
    rw [List.replicate_succ]
    rfl

/-- An all-x buffer never ends with a newline. -/
theorem endsWithNl_replicate_x (n : Nat) :
    endsWithNl (List.replicate n 'x') = false := by
  induction n with
  | zero => rfl
  | succ m ih =>
    cases m with
    | zero => rfl
    | succ k =>
      rw [List.replicate_succ, List.replicate_succ]
      rw [List.replicate_succ] at ih
      simpa [endsWithNl, List.getLast?_cons_cons] using ih

/-- A nonempty all-x buffer is not the empty list. -/
theorem replicate_x_ne_nil (n : Nat) (h : n ≠ 0) : List.replicate n 'x' ≠ [] := by
  cases n with
  | zero => exact absurd rfl h
  | succ m =>
    rw [List.replicate_succ]
    exact List.cons_ne_nil _ _

/-- A timeout on a nonempty unparseable buffer raises the timeout error. -/
theorem recvLoop_timeout_fail (buf : List Char) (rest : List ReadEvent)
    (h1 : buf.isEmpty = false) (h2 : jsonOk buf = false) :
    recvLoop buf (ReadEvent.timedOut :: rest) = RecvOutcome.timedOutErr := by
  simp [recvLoop, h1, h2]

/-- A zero-byte read on a nonempty buffer takes the break path. -/
theorem recvLoop_close_break (buf : List Char) (rest : List ReadEvent)
    (h1 : buf.isEmpty = false) :
    recvLoop buf (ReadEvent.bytes [] :: rest) = RecvOutcome.pyNone := by
  simp [recvLoop, h1]

/-- The trial-parse read loop consumes any number of unparseable chunks
without ever stopping: after k chunks of 4096 x characters it simply
continues on the remaining events with the enlarged buffer. -/
theorem recvLoop_x_chunks (k : Nat) :
    ∀ (m : Nat) (rest : List ReadEvent),
      recvLoop (List.replicate m 'x')
        (List.replicate k (ReadEvent.bytes (List.replicate 4096 'x')) ++ rest)
        = recvLoop (List.replicate (m + 4096 * k) 'x') rest := by
  induction k with
  | zero => intro m rest; rfl
  | succ j ih =>
    intro m rest
    have hne : (List.replicate 4096 'x').isEmpty = false :=
      isEmpty_replicate_x 4096 (by norm_num)
    have happ : List.replicate m 'x' ++ List.replicate 4096 'x'
        = List.replicate (m + 4096) 'x' := (List.replicate_add m 4096 'x').symm
    have hjf : jsonOk (List.replicate m 'x' ++ List.replicate 4096 'x') = false := by
      rw [happ]
      exact jsonOk_replicate_x _ (by omega)
    rw [List.replicate_succ, List.cons_append]
    simp only [recvLoop, hne, hjf, Bool.false_eq_true, if_false]
    rw [happ]
    have harith : m + 4096 + 4096 * j = m + 4096 * (j + 1) := by ring
    rw [← harith]
    exact ih (m + 4096) rest

/-- C5 counterexample: receive_full_response enforces no size bound at all.
A peer that has streamed 257 chunks of 4096 unparseable bytes, more than the
claimed 1 MiB bound, does not make the loop fail with any overflow error:
the loop keeps reading, and the eventual outcome is still determined by
later events (a timeout gives the timeout error, a peer close gives the
break path), never an overflow failure. -/
theorem c5_counterexample :
    recvLoop []
      (List.replicate 257 (ReadEvent.bytes (List.replicate 4096 'x'))
        ++ [ReadEvent.timedOut])
      = RecvOutcome.timedOutErr ∧
    recvLoop []
      (List.replicate 257 (ReadEvent.bytes (List.replicate 4096 'x'))
        ++ [ReadEvent.bytes []])
      = RecvOutcome.pyNone ∧
    1048576 < 257 * 4096 := by
  have hbe := isEmpty_replicate_x (0 + 4096 * 257) (by norm_num)
  have hjf := jsonOk_replicate_x (0 + 4096 * 257) (by norm_num)
  refine ⟨?_, ?_, by norm_num⟩
  · have h1 :
        recvLoop []
          (List.replicate 257 (ReadEvent.bytes (List.replicate 4096 'x'))
            ++ [ReadEvent.timedOut])
          = recvLoop (List.replicate (0 + 4096 * 257) 'x') [ReadEvent.timedOut] :=
      recvLoop_x_chunks 257 0 [ReadEvent.timedOut]
    rw [h1]
    exact recvLoop_timeout_fail _ _ hbe hjf
  · have h2 :
        recvLoop []
          (List.replicate 257 (ReadEvent.bytes (List.replicate 4096 'x'))
            ++ [ReadEvent.bytes []])
          = recvLoop (List.replicate (0 + 4096 * 257) 'x') [ReadEvent.bytes []] :=
      recvLoop_x_chunks 257 0 [ReadEvent.bytes []]
    rw [h2]
    exact recvLoop_close_break _ _ hbe

/-- A chunk that leaves the newline-framed buffer above 1048576 bytes
without a newline terminator makes the bridge receive loop stop with the
overflow outcome. -/
theorem bridgeRecv_overflow_step (buf d : List Char) (rest : List ReadEvent)
    (hd : d ≠ []) (hnl : endsWithNl (buf ++ d) = false)
    (hlen : 1048576 < (buf ++ d).length) :
    bridgeRecv buf (ReadEvent.bytes d :: rest) = BridgeRecvOutcome.overflow := by
  have hde : d.isEmpty = false := by
    cases d with
    | nil => exact absurd rfl hd
    | cons a t => rfl
  simp [bridgeRecv, hde, hnl, hlen]
  intro hle
  rw [List.length_append] at hlen
  omega

/-- The bridge call whose receive loop overflowed returns the Python None
and closes the connection. -/
theorem bridgeSend_overflow_none (nid cn i : Nat) (ev : List ReadEvent)
    (hov : bridgeRecv [] ev = BridgeRecvOutcome.overflow) :
    bridgeSend true (BridgeSt.mk (some i) nid cn) ev
      = some (none, BridgeSt.mk none nid cn, some i) := by
  simp [bridgeSend, bridgeSend.bridgeExchange, hov]

/-- C5 amended: only the newline-framed bridge variant bounds the receive
buffer: a chunk that leaves the buffer above 1048576 bytes without a newline
makes its loop stop, upon which send_command closes the connection and
returns the Python None (an absent result, not an overflow error value); the
trial-parse variant receive_full_response enforces no bound whatsoever and
keeps reading past any size. -/
theorem c5_overflow_behavior :
    (∀ (buf d : List Char) (rest : List ReadEvent), d ≠ [] →
      endsWithNl (buf ++ d) = false → 1048576 < (buf ++ d).length →
      bridgeRecv buf (ReadEvent.bytes d :: rest) = BridgeRecvOutcome.overflow) ∧
    (∀ (nid cn i : Nat) (ev : List ReadEvent),
      bridgeRecv [] ev = BridgeRecvOutcome.overflow →
      bridgeSend true (BridgeSt.mk (some i) nid cn) ev
        = some (none, BridgeSt.mk none nid cn, some i)) ∧
    (∀ rest : List ReadEvent,
      recvLoop []
        (List.replicate 257 (ReadEvent.bytes (List.replicate 4096 'x')) ++ rest)
        = recvLoop (List.replicate (0 + 4096 * 257) 'x') rest) :=
  ⟨bridgeRecv_overflow_step, bridgeSend_overflow_none,
    fun rest => recvLoop_x_chunks 257 0 rest⟩

/-- Witness for c5_overflow_behavior: a single oversized chunk makes the
bridge loop stop with the overflow outcome, after which the call returns the
Python None and closes the connection. -/
theorem c5_witness :
    bridgeRecv [] [ReadEvent.bytes (List.replicate 1048577 'x')]
      = BridgeRecvOutcome.overflow ∧
    bridgeSend true (BridgeSt.mk (some 3) 4 2)
        [ReadEvent.bytes (List.replicate 1048577 'x')]
      = some (none, BridgeSt.mk none 4 2, some 3) := by
  have hrec : bridgeRecv [] [ReadEvent.bytes (List.replicate 1048577 'x')]
      = BridgeRecvOutcome.overflow :=
    c5_overflow_behavior.1 [] (List.replicate 1048577 'x') []
      (replicate_x_ne_nil 1048577 (by norm_num))
      (endsWithNl_replicate_x 1048577)
      (by rw [List.nil_append, List.length_replicate]; norm_num)
  exact ⟨hrec, c5_overflow_behavior.2.1 4 2 3 _ hrec⟩

/-- With a reachable remote and a terminated event stream, send_command
always returns a JSON value: every receive outcome, including every failure,
is converted into a returned dict. -/
theorem ucSend_total (ev : List ReadEvent)
    (h : recvLoop [] ev ≠ RecvOutcome.noMoreEvents) :
    ∃ j : Json, ucSend true ev = some (some j) := by
  cases hrl : recvLoop [] ev with
  | noMoreEvents => exact absurd hrl h
  | ok data =>
    cases hp : parseJsonChars data with
    | none => exact ⟨mkErr decodeErrText, by simp [ucSend, hrl, hp]⟩
    | some v =>
      cases v with
      | obj fs => exact ⟨Json.obj (codeNormalize fs), by simp [ucSend, hrl, hp]⟩
      | null => exact ⟨mkErr attrErrText, by simp [ucSend, hrl, hp]⟩
      | bool b => exact ⟨mkErr attrErrText, by simp [ucSend, hrl, hp]⟩
      | num lit => exact ⟨mkErr attrErrText, by simp [ucSend, hrl, hp]⟩
      | str s => exact ⟨mkErr attrErrText, by simp [ucSend, hrl, hp]⟩
      | arr items => exact ⟨mkErr attrErrText, by simp [ucSend, hrl, hp]⟩
  | pyNone => exact ⟨mkErr attrErrText, by simp [ucSend, hrl]⟩
  | closedEarly =>
    exact ⟨mkErr "Connection closed before receiving data", by simp [ucSend, hrl]⟩
  | timedOutErr =>
    exact ⟨mkErr "Timeout receiving Unreal response", by simp [ucSend, hrl]⟩

/-- One send_command call on the UnrealConnection: whatever the old socket
state, the call makes exactly one connect attempt on the freshly numbered
socket, closes that socket before returning, and leaves no socket stored. -/
theorem ucSendT_step (ev : List ReadEvent) (st : UCSt) (tr : SockTrace)
    (h : recvLoop [] ev ≠ RecvOutcome.noMoreEvents) :
    ∃ (j : Json) (tr2 : SockTrace),
      ucSendT true ev st tr = some (some j, UCSt.mk none, tr2, some tr.nextId) ∧
      tr2.connects = tr.connects + 1 ∧ tr2.nextId = tr.nextId + 1 ∧
      tr.nextId ∈ tr2.closedIds := by
  obtain ⟨j, hj⟩ := ucSend_total ev h
  obtain ⟨nid, cn, cl⟩ := tr
  obtain ⟨sk⟩ := st
  cases sk with
  | none =>
    refine ⟨j, SockTrace.mk (nid + 1) (cn + 1) (nid :: cl), ?_, rfl, rfl, ?_⟩
    · simp [ucSendT, hj, recClose]
    · exact List.mem_cons_self _ _
  | some i =>
    refine ⟨j, SockTrace.mk (nid + 1) (cn + 1) (nid :: i :: cl), ?_, rfl, rfl, ?_⟩
    · simp [ucSendT, hj, recClose]
    · exact List.mem_cons_self _ _

/-- A bridge call whose newline-framed line parses keeps the global
connection open and untouched for the next call, making no connect
attempt. -/
theorem bridge_success_keeps_conn (nid cn i : Nat) (ev : List ReadEvent)
    (l : List Char) (v : Json)
    (hr : bridgeRecv [] ev = BridgeRecvOutcome.line l) (hl : l.isEmpty = false)
    (hp : parseJsonChars l = some v) :
    bridgeSend true (BridgeSt.mk (some i) nid cn) ev
      = some (some v, BridgeSt.mk (some i) nid cn, some i) := by
  simp [bridgeSend, bridgeSend.bridgeExchange, hr, hl, hp]

/-- A bridge call whose newline-framed line fails to parse returns the
decode-error dict and deliberately keeps the global connection open. -/
theorem bridge_decode_keeps_conn (nid cn i : Nat) (ev : List ReadEvent)
    (l : List Char)
    (hr : bridgeRecv [] ev = BridgeRecvOutcome.line l) (hl : l.isEmpty = false)
    (hp : parseJsonChars l = none) :
    bridgeSend true (BridgeSt.mk (some i) nid cn) ev
      = some (some (Json.obj [("error", Json.str bridgeDecodeErrText)]),
          BridgeSt.mk (some i) nid cn, some i) := by
  simp [bridgeSend, bridgeSend.bridgeExchange, hr, hl, hp]

/-- C1 counterexample: the send operation can return the Python None, an
absent result that is not a normalized error value: the UnrealConnection
send_command returns None whenever the fresh connect fails, and the bridge
send_command returns None when the peer closes the stream before a newline
arrives. -/
theorem c1_counterexample :
    ucSend false [] = some none ∧
    bridgeSend true (BridgeSt.mk (some 5) 6 1) [ReadEvent.bytes []]
      = some (none, BridgeSt.mk none 6 1, some 5) :=
  ⟨rfl, rfl⟩

/-- In the trial-parse variant the bytes handed to json.loads always parse:
the read loop only ever returns a buffer that passed the completeness
test. -/
theorem recvLoop_ok_jsonOk : ∀ (ev : List ReadEvent) (buf b : List Char),
    recvLoop buf ev = RecvOutcome.ok b → jsonOk b = true := by
  intro ev
  induction ev with
  | nil =>
    intro buf b h
    exact absurd h (by simp [recvLoop])
  | cons e rest ih =>
    intro buf b h
    cases e with
    | timedOut =>
      simp only [recvLoop] at h
      split at h
      · exact absurd h (by simp)
      · split at h
        · next hj =>
            cases h
            exact hj
        · exact absurd h (by simp)
    | bytes d =>
      simp only [recvLoop] at h
      split at h
      · split at h
        · exact absurd h (by simp)
        · exact absurd h (by simp)
      · split at h
        · next hj =>
            cases h
            exact hj
        · exact ih _ _ h

/-- C1 amended: the send operation never raises (every exception is caught
inside it), and with a successful connect every exchange failure of the
UnrealConnection variant surfaces as a returned object of the form with
status error and an error text: the closed-early, timeout and zero-byte
break outcomes return the error object carrying the corresponding message, a
response that parses to a non-dict value returns the error object from the
attribute-error handler, a decode failure cannot occur because the read loop
only returns buffers that parse, and every terminated stream yields some
returned value. But not every failure is a normalized error result: a
connect failure of the UnrealConnection variant returns the Python None,
and the bridge variant returns the Python None on peer-close before the
newline terminator and on buffer overflow, while its connect failures do
return an error dict. -/
theorem c1_failure_surfaces (ev : List ReadEvent) :
    ucSend false ev = some none ∧
    (recvLoop [] ev = RecvOutcome.closedEarly →
      ucSend true ev
        = some (some (mkErr "Connection closed before receiving data"))) ∧
    (recvLoop [] ev = RecvOutcome.timedOutErr →
      ucSend true ev = some (some (mkErr "Timeout receiving Unreal response"))) ∧
    (recvLoop [] ev = RecvOutcome.pyNone →
      ucSend true ev = some (some (mkErr attrErrText))) ∧
    (∀ (data : List Char) (v : Json),
      recvLoop [] ev = RecvOutcome.ok data → parseJsonChars data = some v →
      (∀ fs, v ≠ Json.obj fs) →
      ucSend true ev = some (some (mkErr attrErrText))) ∧
    (∀ data : List Char, recvLoop [] ev = RecvOutcome.ok data →
      ∃ v, parseJsonChars data = some v) ∧
    (recvLoop [] ev ≠ RecvOutcome.noMoreEvents →
      ∃ r : Json, ucSend true ev = some (some r)) ∧
    (∀ nid cn : Nat,
      bridgeSend false (BridgeSt.mk none nid cn) ev
        = some (some (Json.obj [("error", Json.str netErrText)]),
            BridgeSt.mk none (nid + 1) (cn + 1), none)) ∧
    (∀ nid cn i : Nat, bridgeRecv [] ev = BridgeRecvOutcome.closedMid →
      bridgeSend true (BridgeSt.mk (some i) nid cn) ev
        = some (none, BridgeSt.mk none nid cn, some i)) ∧
    (∀ nid cn i : Nat, bridgeRecv [] ev = BridgeRecvOutcome.overflow →
      bridgeSend true (BridgeSt.mk (some i) nid cn) ev
        = some (none, BridgeSt.mk none nid cn, some i)) := by
  refine ⟨rfl, ?_, ?_, ?_, ?_, ?_, fun h => ucSend_total ev h, fun _ _ => rfl,
    ?_, ?_⟩
  · intro h
    simp [ucSend, h]
  · intro h
    simp [ucSend, h]
  · intro h
    simp [ucSend, h]
  · intro data v hrl hp hno
    cases v with
    | obj fs => exact absurd rfl (hno fs)
    | null => simp [ucSend, hrl, hp]
    | bool b => simp [ucSend, hrl, hp]
    | num lit => simp [ucSend, hrl, hp]
    | str s => simp [ucSend, hrl, hp]
    | arr items => simp [ucSend, hrl, hp]
  · intro data hrl
    have hj : jsonOk data = true := recvLoop_ok_jsonOk ev [] data hrl
    exact Option.isSome_iff_exists.mp hj
  · intro nid cn i h
    simp [bridgeSend, bridgeSend.bridgeExchange, h]
  · intro nid cn i h
    simp [bridgeSend, bridgeSend.bridgeExchange, h]

/-- Witness for c1_failure_surfaces: a timing-out stream and a closing
stream produce the two error objects, a connect failure produces the Python
None, and the bridge returns the Python None on an immediate peer close and
on an overflowing chunk. -/
theorem c1_witness :
    ucSend false [ReadEvent.timedOut] = some none ∧
    ucSend true [ReadEvent.timedOut]
      = some (some (mkErr "Timeout receiving Unreal response")) ∧
    ucSend true [ReadEvent.bytes []]
      = some (some (mkErr "Connection closed before receiving data")) ∧
    bridgeSend true (BridgeSt.mk (some 5) 6 1) [ReadEvent.bytes []]
      = some (none, BridgeSt.mk none 6 1, some 5) ∧
    bridgeSend true (BridgeSt.mk (some 9) 10 2)
        [ReadEvent.bytes (List.replicate 1048577 'x')]
      = some (none, BridgeSt.mk none 10 2, some 9) := by
  have hov : bridgeRecv [] [ReadEvent.bytes (List.replicate 1048577 'x')]
      = BridgeRecvOutcome.overflow :=
    bridgeRecv_overflow_step [] (List.replicate 1048577 'x') []
      (replicate_x_ne_nil 1048577 (by norm_num))
      (endsWithNl_replicate_x 1048577)
      (by rw [List.nil_append, List.length_replicate]; norm_num)
  exact ⟨(c1_failure_surfaces [ReadEvent.timedOut]).1,
    (c1_failure_surfaces [ReadEvent.timedOut]).2.2.1 rfl,
    (c1_failure_surfaces [ReadEvent.bytes []]).2.1 rfl,
    (c1_failure_surfaces [ReadEvent.bytes []]).2.2.2.2.2.2.2.2.1 6 1 5 rfl,
    (c1_failure_surfaces [ReadEvent.bytes (List.replicate 1048577 'x')]).2.2.2.2.2.2.2.2.2
      10 2 9 hov⟩

/-- C2 counterexample: on the unreal_bridge (cited by the claim), two
consecutive successful calls on one bridge reuse the same socket: the first
call connects socket 0 and keeps it open, the second call performs no
connect attempt and exchanges on socket 0 again, so after two calls the
connect count is 1, not 2. -/
theorem c2_counterexample :
    bridgeSend true (BridgeSt.mk none 0 0) [ReadEvent.bytes ("\x7b\x7d\n".toList)]
      = some (some (Json.obj []), BridgeSt.mk (some 0) 1 1, some 0) ∧
    bridgeSend true (BridgeSt.mk (some 0) 1 1) [ReadEvent.bytes ("\x7b\x7d\n".toList)]
      = some (some (Json.obj []), BridgeSt.mk (some 0) 1 1, some 0) ∧
    (1 : Nat) ≠ 2 :=
  ⟨rfl, rfl, by decide⟩

/-- C2 amended: the UnrealConnection variant does satisfy the claim: every
call makes exactly one connect attempt on a freshly numbered socket and
closes it before returning, so over any call sequence the connect count
equals the call count and no socket is used twice; the unreal_bridge variant
instead reuses one connection across calls: a call that finds a live
connection makes no connect attempt and leaves the same socket open for the
next call. -/
theorem c2_connection_lifecycle :
    (∀ (ev : List ReadEvent) (st : UCSt) (tr : SockTrace),
      recvLoop [] ev ≠ RecvOutcome.noMoreEvents →
      ∃ (j : Json) (tr2 : SockTrace),
        ucSendT true ev st tr = some (some j, UCSt.mk none, tr2, some tr.nextId) ∧
        tr2.connects = tr.connects + 1 ∧ tr2.nextId = tr.nextId + 1 ∧
        tr.nextId ∈ tr2.closedIds) ∧
    (∀ (calls : List (List ReadEvent)) (st : UCSt) (tr : SockTrace),
      (∀ ev ∈ calls, recvLoop [] ev ≠ RecvOutcome.noMoreEvents) →
      (runUC calls (st, tr)).2.connects = tr.connects + calls.length) ∧
    (∀ (nid cn i : Nat) (ev : List ReadEvent) (l : List Char) (v : Json),
      bridgeRecv [] ev = BridgeRecvOutcome.line l → l.isEmpty = false →
      parseJsonChars l = some v →
      bridgeSend true (BridgeSt.mk (some i) nid cn) ev
        = some (some v, BridgeSt.mk (some i) nid cn, some i)) := by
  refine ⟨ucSendT_step, ?_, bridge_success_keeps_conn⟩
  intro calls
  induction calls with
  | nil => intro st tr hall; simp [runUC]
  | cons ev rest ih =>
    intro st tr hall
    obtain ⟨j, tr2, heq, hconn, -, -⟩ :=
      ucSendT_step ev st tr (hall ev (List.mem_cons_self _ _))
    have hrest : ∀ e ∈ rest, recvLoop [] e ≠ RecvOutcome.noMoreEvents :=
      fun e he => hall e (List.mem_cons_of_mem _ he)
    calc (runUC (ev :: rest) (st, tr)).2.connects
        = (runUC rest (UCSt.mk none, tr2)).2.connects := by rw [runUC, heq]
      _ = tr2.connects + rest.length := ih (UCSt.mk none) tr2 hrest
      _ = tr.connects + (ev :: rest).length := by
          rw [hconn, List.length_cons]
          omega

/-- Witness for c2_connection_lifecycle: a single UnrealConnection call from
a fresh state connects once on socket 0 and closes it. -/
theorem c2_witness :
    ∃ (j : Json) (tr2 : SockTrace),
      ucSendT true [ReadEvent.timedOut] (UCSt.mk none) (SockTrace.mk 0 0 [])
        = some (some j, UCSt.mk none, tr2, some 0) ∧
      tr2.connects = 0 + 1 ∧ tr2.nextId = 0 + 1 ∧ 0 ∈ tr2.closedIds :=
  c2_connection_lifecycle.1 [ReadEvent.timedOut] (UCSt.mk none)
    (SockTrace.mk 0 0 []) (by decide)

/-- C8 counterexample: on the unreal_bridge (cited by the claim), a call
whose received line is not valid JSON returns the decode-error dict but does
not discard the connection: the global connection state is unchanged and the
same socket remains open for the next call. -/
theorem c8_counterexample :
    bridgeSend true (BridgeSt.mk (some 7) 8 1) [ReadEvent.bytes ("notjson\n".toList)]
      = some (some (Json.obj [("error", Json.str bridgeDecodeErrText)]),
          BridgeSt.mk (some 7) 8 1, some 7) ∧
    (some 7 : Option Nat) ≠ (none : Option Nat) :=
  ⟨rfl, by decide⟩

/-- C8 amended: in the bridge variant a non-JSON response line is reported
as a decode error but the connection is deliberately kept open, and the
bridge remains usable: a following call that parses succeeds on the same
connection. In the UnrealConnection variant no decode error can occur at
all, because the read loop only returns buffers that parse; bytes that never
parse surface instead as the closed or timeout failures, whose calls return
an error object and close the socket used. -/
theorem c8_decode_error_handling :
    (∀ (nid cn i : Nat) (ev : List ReadEvent) (l : List Char),
      bridgeRecv [] ev = BridgeRecvOutcome.line l → l.isEmpty = false →
      parseJsonChars l = none →
      bridgeSend true (BridgeSt.mk (some i) nid cn) ev
        = some (some (Json.obj [("error", Json.str bridgeDecodeErrText)]),
            BridgeSt.mk (some i) nid cn, some i)) ∧
    (∀ (ev : List ReadEvent) (buf b : List Char),
      recvLoop buf ev = RecvOutcome.ok b → jsonOk b = true) ∧
    (∀ (ev : List ReadEvent) (st : UCSt) (tr : SockTrace),
      (recvLoop [] ev = RecvOutcome.pyNone ∨
        recvLoop [] ev = RecvOutcome.closedEarly ∨
        recvLoop [] ev = RecvOutcome.timedOutErr) →
      ∃ (s : String) (tr2 : SockTrace),
        ucSendT true ev st tr = some (some (mkErr s), UCSt.mk none, tr2, some tr.nextId) ∧
        tr.nextId ∈ tr2.closedIds) ∧
    (∀ (nid cn i : Nat) (ev : List ReadEvent) (l : List Char) (v : Json),
      bridgeRecv [] ev = BridgeRecvOutcome.line l → l.isEmpty = false →
      parseJsonChars l = some v →
      bridgeSend true (BridgeSt.mk (some i) nid cn) ev
        = some (some v, BridgeSt.mk (some i) nid cn, some i)) := by
  refine ⟨bridge_decode_keeps_conn, recvLoop_ok_jsonOk, ?_, bridge_success_keeps_conn⟩
  intro ev st tr hdisj
  have hu : ∃ s : String, ucSend true ev = some (some (mkErr s)) := by
    rcases hdisj with hrl | hrl | hrl
    · exact ⟨attrErrText, by simp [ucSend, hrl]⟩
    · exact ⟨"Connection closed before receiving data", by simp [ucSend, hrl]⟩
    · exact ⟨"Timeout receiving Unreal response", by simp [ucSend, hrl]⟩
  obtain ⟨s, hs⟩ := hu
  obtain ⟨nid, cn, cl⟩ := tr
  obtain ⟨sk⟩ := st
  cases sk with
  | none =>
    refine ⟨s, SockTrace.mk (nid + 1) (cn + 1) (nid :: cl), ?_, ?_⟩
    · simp [ucSendT, hs, recClose]
    · exact List.mem_cons_self _ _
  | some i =>
    refine ⟨s, SockTrace.mk (nid + 1) (cn + 1) (nid :: i :: cl), ?_, ?_⟩
    · simp [ucSendT, hs, recClose]
    · exact List.mem_cons_self _ _

/-- Witness for c8_decode_error_handling: a non-JSON line keeps the bridge
connection, and a following parseable line succeeds on that same
connection. -/
theorem c8_witness :
    bridgeSend true (BridgeSt.mk (some 7) 8 1) [ReadEvent.bytes ("notjson\n".toList)]
      = some (some (Json.obj [("error", Json.str bridgeDecodeErrText)]),
          BridgeSt.mk (some 7) 8 1, some 7) ∧
    bridgeSend true (BridgeSt.mk (some 7) 8 1) [ReadEvent.bytes ("\x7b\x7d\n".toList)]
      = some (some (Json.obj []), BridgeSt.mk (some 7) 8 1, some 7) := by
  refine ⟨c8_decode_error_handling.1 8 1 7 _ ("notjson".toList) rfl rfl rfl, ?_⟩
  exact c8_decode_error_handling.2.2.2 8 1 7 _ ("\x7b\x7d".toList) (Json.obj []) rfl rfl rfl

end UMCP
